import Mathlib

/-
Verification of the orchestration layer of the Twitch channel-points miner
(`TwitchChannelPointsMiner/TwitchChannelPointsMiner.py`).

The Python class drives a pool of pubsub websocket connections, a registry of
tracked streamers, a minute-watched scheduler thread, a campaign-sync thread,
and a shutdown handler.  The definitions below are a shallow embedding of that
file: every pure decision of the orchestration code becomes a Lean function,
external collaborators (the Twitch HTTP client, the websocket pool internals,
the filesystem) become explicit oracle parameters, and the stateful run /
shutdown sequences become functions from an explicit miner state (plus the
oracles) to a new state and a list of emitted effects.
-/

namespace Miner

/-- Per-streamer settings record.  The Python `StreamerSettings` object starts
with unset (`None`) fields that are later filled from the global defaults, so
each flag is modelled as an `Option Bool` (`none` = not yet set).  The nested
bet-settings record is elided: no property verified here looks inside it. -/
structure StreamerSettings where
  make_predictions : Option Bool
  claim_drops : Option Bool
  follow_raid : Option Bool
  join_chat : Option Bool
deriving DecidableEq, Repr

/-- The all-unset settings record (Python `settings=None` before defaulting). -/
def emptySettings : StreamerSettings :=
  { make_predictions := none, claim_drops := none,
    follow_raid := none, join_chat := none }

/-- The normalization the miner applies to a raw username string: Python
`.lower().strip()` — every character lowercased, then surrounding
whitespace removed from both ends (written over the character list so that
it evaluates by reduction). -/
def normName (s : String) : String :=
  ⟨(((s.data.map Char.toLower).dropWhile Char.isWhitespace).reverse.dropWhile
      Char.isWhitespace).reverse⟩

/-- A tracked streamer.  Fields are the attributes of the Python `Streamer`
object that `TwitchChannelPointsMiner.py` reads or writes: the login name,
the resolved channel id, the current point balance, the history of point
deltas with their causes (only emptiness is inspected by the final report),
online / moderator flags, the one-shot initialization marker, whether an IRC
chat thread was attached, and the settings record.  The per-entity mutex is
modelled separately (see `MutexState`). -/
structure Streamer where
  username : String
  channel_id : Option String
  channel_points : Int
  history : List (Int × String)
  is_online : Bool
  viewer_is_mod : Bool
  init_processed : Bool
  irc_chat : Bool
  settings : StreamerSettings
deriving DecidableEq, Repr

/-- Modelled from the spec: the `Streamer` constructor (class
`classes/entities/Streamer.py`, not among the sources here).  A tracked
entity is "created when first discovered": the constructor stores the
normalized login as the stable identifier together with the supplied
settings record, and fresh default state — zero balance, empty history,
offline, not a moderator, not yet initialized, no chat connection. -/
def mkStreamer (raw : String) (settings : StreamerSettings) : Streamer :=
  { username := normName raw
    channel_id := none
    channel_points := 0
    history := []
    is_online := false
    viewer_is_mod := false
    init_processed := false
    irc_chat := false
    settings := settings }

/-- Modelled from the spec: `set_default_settings` from the utils module (not
among the sources here).  Per the call site comment, it inits "all the
missing settings with a default value": every unset field is filled from the
global default settings record, set fields are kept. -/
def set_default_settings (s dflt : StreamerSettings) : StreamerSettings :=
  { make_predictions := s.make_predictions <|> dflt.make_predictions
    claim_drops := s.claim_drops <|> dflt.claim_drops
    follow_raid := s.follow_raid <|> dflt.follow_raid
    join_chat := s.join_chat <|> dflt.join_chat }

/-- The external Twitch client (`classes/Twitch.py`), out of scope of the
verified layer: each method the orchestration code calls becomes a pure
oracle.  `get_channel_id` returns `none` where the Python client raises
`StreamerDoesNotExistException`. -/
structure TwitchOracle where
  get_channel_id : String → Option String
  channel_points : String → Int
  is_online : String → Bool
  viewer_is_mod : String → Bool
  get_followers : List String

/- ===== Liveness sweep (run()'s main loop, lines 235-248) ===== -/

/-- One websocket connection of the pool, as the liveness sweep sees it:
its reconnect-in-progress flag (`is_reconneting` in the source, sic) and
the age of its last ping in minutes (`elapsed_last_ping()`). -/
structure WSConn where
  is_reconneting : Bool
  elapsed_last_ping : ℚ
deriving DecidableEq, Repr

/-- The per-connection test of run()'s sweep: reconnect exactly when the
connection is not already reconnecting, its last ping is more than ten
minutes old, and an internet connection is available. -/
def should_reconnect (ws : WSConn) (internet : Bool) : Bool :=
  !ws.is_reconneting && decide (ws.elapsed_last_ping > 10) && internet

/-- One liveness-sweep pass over the pool (`for index in range(0,
len(self.ws_pool.ws))`): the indices whose connection gets
`WebSocketsPool.handle_reconnection` called on it this pass. -/
def liveness_sweep (pool : List WSConn) (internet : Bool) : List Nat :=
  (List.range pool.length).filter fun i =>
    match pool.get? i with
    | some ws => should_reconnect ws internet
    | none => false

/- ===== Session baseline (__save_original, lines 448-451) ===== -/

/-- The `base_points` dictionary: username → balance recorded when the
streamer first entered the session.  Python dict modelled as an ordered
association list (insertion appends, lookup takes the unique binding). -/
abbrev BasePoints := List (String × Int)

/-- `__save_original`: for each current streamer, record its balance as the
session baseline only if no baseline for that username exists yet. -/
def save_original (streamers : List Streamer) (bp : BasePoints) : BasePoints :=
  streamers.foldl
    (fun acc s =>
      if (acc.lookup s.username).isSome then acc
      else acc ++ [(s.username, s.channel_points)])
    bp

/- ===== Final report (__print_report, lines 482-528) ===== -/

/-- Status of a prediction event (spec section 3). -/
inductive PredictionStatus where
  | ACTIVE | LOCKED | RESOLVED | CANCELED
deriving DecidableEq, Repr

/-- A stored prediction event, restricted to the attributes `__print_report`
reads: the owning streamer, whether our bet was confirmed, and the lifecycle
status (kept to state retention properties; the report code never reads it). -/
structure PredictionEvent where
  streamer : Streamer
  bet_confirmed : Bool
  status : PredictionStatus
deriving DecidableEq, Repr

/-- The event store `events_predictions`: event id → event. -/
abbrev EventStore := List (String × PredictionEvent)

/-- The prediction-recap part of `__print_report`: the ids of the stored
events that get a recap line.  The source prints a recap for an event iff
`event.bet_confirmed is True and event.streamer.settings.make_predictions
is True`; the event's resolution status is not consulted. -/
def report_recaps (events : EventStore) : List String :=
  (events.filter fun p =>
      p.2.bet_confirmed
        && (p.2.streamer.settings.make_predictions == some true)).map Prod.fst

/-- The per-streamer gain lines of `__print_report`: a line is printed only
for streamers whose history is non-empty, and it reports
`channel_points - base_points[username]`.  (`run` records a baseline for
every active streamer via `__save_original`, so the lookup never misses;
a missing key is defaulted to 0 here in place of Python's `KeyError`.) -/
def report_gains (streamers : List Streamer) (bp : BasePoints) :
    List (String × Int) :=
  (streamers.filter fun s => s.history ≠ []).map fun s =>
    (s.username, s.channel_points - ((bp.lookup s.username).getD 0))

/- ===== Shutdown (end, lines 453-480) ===== -/

/-- The state of one streamer's mutex at the point the shutdown drain loop
runs (after both worker threads were joined): whether it is currently
locked, and whether some still-live thread will eventually release it. -/
structure MutexState where
  locked : Bool
  holder_will_release : Bool
deriving DecidableEq, Repr

/-- One iteration of end()'s drain loop (`if streamer.mutex.locked():
streamer.mutex.acquire(); streamer.mutex.release()`).  Python's
`threading.Lock.acquire()` blocks until the lock is released by some other
thread; `none` models the call never returning because the lock is held and
no live thread will ever release it. -/
def drain_mutex (m : MutexState) : Option MutexState :=
  if m.locked then
    if m.holder_will_release then some { m with locked := false }
    else none
  else some m

/-- end()'s full drain loop over `self.streamers`: `none` as soon as one
blocking acquire never returns. -/
def drain_mutexes : List MutexState → Option (List MutexState)
  | [] => some []
  | m :: ms =>
    match drain_mutex m, drain_mutexes ms with
    | some m', some ms' => some (m' :: ms')
    | _, _ => none

/-- The actions `end()` performs, in source order. -/
inductive ShutdownStep where
  /-- Per-streamer: leave the IRC chat and join its thread. -/
  | leave_chat_join
  /-- `self.running = self.twitch.running = False`. -/
  | set_running_false
  /-- `self.ws_pool.end()`. -/
  | ws_pool_end
  /-- `thread.join()` on a spawned worker; `timeout` is the timeout argument
  passed to the join (`none` = no timeout, wait without bound). -/
  | join_worker (name : String) (timeout : Option Nat)
  /-- The mutex drain loop (`drain_mutexes`). -/
  | drain_guards
  /-- `self.__print_report()`. -/
  | print_report
  /-- `sys.exit(status)`. -/
  | sys_exit (status : Nat)
deriving DecidableEq, Repr

/-- The sequence of steps of `end()`; `mw` / `sync` say whether the
minute-watcher / campaign-sync thread exists (the source guards each join
with `is not None`). -/
def end_steps (mw sync : Bool) : List ShutdownStep :=
  [ShutdownStep.leave_chat_join, ShutdownStep.set_running_false,
    ShutdownStep.ws_pool_end]
  ++ (if mw then [ShutdownStep.join_worker "Minute watcher" none] else [])
  ++ (if sync then [ShutdownStep.join_worker "Sync campaigns/inventory" none]
      else [])
  ++ [ShutdownStep.drain_guards, ShutdownStep.print_report,
    ShutdownStep.sys_exit 0]

/-- Whether a shutdown step is a worker join. -/
def is_join : ShutdownStep → Bool
  | ShutdownStep.join_worker _ _ => true
  | _ => false

/-- Whether a shutdown step is a worker join with no timeout (unbounded). -/
def is_unbounded_join : ShutdownStep → Bool
  | ShutdownStep.join_worker _ none => true
  | _ => false

/- ===== Streamer reload (__reload_streamers, lines 274-446) ===== -/

/-- `streamers_dict`: username key → streamer, as an ordered association
list (Python dicts keep insertion order; every insertion below is of a key
not yet present, so appending is exact). -/
abbrev Dict := List (String × Streamer)

/-- `(streamers_name, streamers_dict)`: the pair of accumulators
`__reload_streamers` threads through its source-scanning phases. -/
abbrev NameDict := List String × Dict

/-- An element of the `streamers` argument of run(): the caller may pass a
plain username string or a ready `Streamer` instance. -/
inductive StreamerInput where
  | name (raw : String)
  | inst (s : Streamer)

/-- The username key a static-list input is filed under: the instance's own
username, or the string lowered and stripped. -/
def input_username : StreamerInput → String
  | StreamerInput.name raw => normName raw
  | StreamerInput.inst s => s.username

/-- The dict value stored for a static-list input: the instance itself, or
`Streamer(streamer)` built from the raw string. -/
def input_streamer : StreamerInput → Streamer
  | StreamerInput.name raw => mkStreamer raw emptySettings
  | StreamerInput.inst s => s

/-- Phase 1: carry over `self.streamers` from the previous cycle, skipping
blacklisted usernames (no duplicate check: the previous cycle's output is
already duplicate-free). -/
def phase_existing (blacklist : List String) (existing : List Streamer) :
    NameDict :=
  existing.foldl
    (fun nd st =>
      if st.username ∈ blacklist then nd
      else (nd.1 ++ [st.username], nd.2 ++ [(st.username, st)]))
    ([], [])

/-- Phase 2: the static `streamers` argument.  A username is added only when
its key is not already in the dict and not blacklisted. -/
def phase_static (blacklist : List String) (inputs : List StreamerInput)
    (nd : NameDict) : NameDict :=
  inputs.foldl
    (fun nd inp =>
      let u := input_username inp
      if (nd.2.lookup u) = none ∧ u ∉ blacklist then
        (nd.1 ++ [u], nd.2 ++ [(u, input_streamer inp)])
      else nd)
    nd

/-- `streamers_dict[username].settings = streamer.settings`: replace the
settings of the entry stored under `u`. -/
def dict_update_settings (d : Dict) (u : String) (s : StreamerSettings) :
    Dict :=
  d.map fun p => if p.1 = u then (p.1, { p.2 with settings := s }) else p

/-- Phase 3, the JSON-file loop.  One entry per iteration; `u` is the live
value of the Python loop variable `username`.  The source tests
`if username not in blacklist` BEFORE reassigning `username` from the
current entry, so the test applies to the previous iteration's username and
a failing test also skips the reassignment.  A known entry only has its
settings replaced; a new one is appended.  Returns the collected
`usernames` list and the updated accumulators. -/
def json_phase (blacklist : List String) :
    List (String × StreamerSettings) → String → List String → NameDict →
      List String × NameDict
  | [], _, usernames, nd => (usernames, nd)
  | (ju, jsettings) :: rest, u, usernames, nd =>
    if u ∈ blacklist then json_phase blacklist rest u usernames nd
    else if (nd.2.lookup ju).isSome then
      json_phase blacklist rest ju (usernames ++ [ju])
        (nd.1, dict_update_settings nd.2 ju jsettings)
    else
      json_phase blacklist rest ju (usernames ++ [ju])
        (nd.1 ++ [ju], nd.2 ++ [(ju, mkStreamer ju jsettings)])

/-- `__remove_missing`: drop each listed username that is still registered
from both the name list (first occurrence) and the dict. -/
def remove_missing (nd : NameDict) (items : List String) : NameDict :=
  items.foldl
    (fun nd u =>
      if u ∈ nd.1 then (nd.1.erase u, nd.2.filter fun p => p.1 ≠ u)
      else nd)
    nd

/-- Phase 4, the followers loop: add every not-yet-registered followed
username, keyed by the raw name, with `Streamer(username.lower().strip())`
as the value. -/
def followers_phase (followed : List String) (nd : NameDict) : NameDict :=
  followed.foldl
    (fun nd u =>
      if (nd.2.lookup u).isSome then nd
      else (nd.1 ++ [u], nd.2 ++ [(u, mkStreamer (normName u) emptySettings)]))
    nd

/-- The value of the Python variable `username` when the JSON loop starts:
phase 2 assigned it for every static input (guards notwithstanding), so it
holds the last static input's username — and is still unassigned when the
static list is empty, in which case the JSON loop's first blacklist test
raises `NameError` (modelled as `none`). -/
def last_assigned_username (inputs : List StreamerInput) : Option String :=
  (inputs.map input_username).getLast?

/-- The log line `Streamer {username} does not exist`. -/
def notFoundMsg (u : String) : String :=
  "Streamer " ++ u ++ " does not exist"

/-- The body of the per-username registration loop (lines 397-426) for one
username key and its dict entry.  For a not-yet-initialized streamer the
channel id is resolved first (`none` = `StreamerDoesNotExistException`
raised, the rest of the body is skipped); then the settings are defaulted
and an IRC chat thread is attached when requested.  Returns the streamer to
append, or `none` when the lookup failed. -/
def resolve_streamer (tw : TwitchOracle) (dflt : StreamerSettings)
    (key : String) (s : Streamer) : Option Streamer :=
  let step1 : Option Streamer :=
    if s.init_processed then some s
    else
      match tw.get_channel_id key with
      | none => none
      | some cid => some { s with channel_id := some cid }
  match step1 with
  | none => none
  | some s1 =>
    let s2 := { s1 with settings := set_default_settings s1.settings dflt }
    let s3 :=
      if s2.settings.join_chat = some true ∧ s2.irc_chat = false then
        { s2 with irc_chat := true }
      else s2
    some s3

/-- The registration loop over `streamers_name`: builds `streamers_array`,
collecting a log line for each username whose channel lookup failed.
`none` models the `KeyError` of a name missing from the dict (never reached
from `reload_streamers`, whose phases keep names and dict keys equal). -/
def resolve_loop (tw : TwitchOracle) (dflt : StreamerSettings) (d : Dict) :
    List String → Option (List Streamer × List String)
  | [] => some ([], [])
  | u :: rest =>
    match d.lookup u with
    | none => none
    | some s =>
      match resolve_loop tw dflt d rest with
      | none => none
      | some (arr, logs) =>
        match resolve_streamer tw dflt u s with
        | none => some (arr, notFoundMsg u :: logs)
        | some s' => some (s' :: arr, logs)

/-- The populate loop (lines 435-444) for one streamer: when not yet
initialized, load its channel-points balance, its online state and the
viewer's moderator status from the Twitch client; a moderated channel gets
`make_predictions` forced to `False`; finally the one-shot marker is set. -/
def init_streamer (tw : TwitchOracle) (s : Streamer) : Streamer :=
  if s.init_processed then s
  else
    let s1 := { s with channel_points := tw.channel_points s.username }
    let s2 := { s1 with is_online := tw.is_online s1.username }
    let s3 := { s2 with viewer_is_mod := tw.viewer_is_mod s2.username }
    let s4 :=
      if s3.viewer_is_mod then
        { s3 with settings := { s3.settings with make_predictions := some false } }
      else s3
    { s4 with init_processed := true }

/-- The populate loop over the freshly built `streamers_array`. -/
def init_pass (tw : TwitchOracle) (arr : List Streamer) : List Streamer :=
  arr.map (init_streamer tw)

/-- The `sources_usernames` bookkeeping dict: the usernames each refreshable
source (JSON file, followed list) contributed on the previous cycle. -/
structure SourcesUsernames where
  json_file : List String
  followers : List String
deriving DecidableEq, Repr

/-- What `__reload_streamers` produces: the new active list, the final
`streamers_name` / `streamers_dict` accumulators, the updated
`sources_usernames`, and the not-found log lines. -/
structure ReloadResult where
  streamers_array : List Streamer
  streamers_name : List String
  dict : Dict
  sources : SourcesUsernames
  logs : List String
deriving DecidableEq

/-- The whole JSON-file part of `__reload_streamers` (lines 316-353): run
the entry loop, then prune usernames that dropped out of the file since the
previous cycle.  Returns the updated accumulators and the file's username
list (the new `sources_usernames["JSON_FILE"]`).  The loop body reads the
stale `username` variable before assigning it, so with a non-empty file and
an empty static input list the first iteration raises `NameError` (`none`);
with an empty file the loop body never runs, `usernames` stays empty, and
the call returns normally (pruning every previously file-sourced name). -/
def json_stage (blacklist : List String) (srcs_json : List String)
    (inputs : List StreamerInput)
    (json : Option (List (String × StreamerSettings))) (nd1 : NameDict) :
    Option (NameDict × List String) :=
  match json with
  | none => some (nd1, srcs_json)
  | some [] =>
    let nd3 :=
      if srcs_json ≠ [] then
        remove_missing nd1 (srcs_json.filter fun x => x ∉ ([] : List String))
      else nd1
    some (nd3, [])
  | some (e :: rest) =>
    match last_assigned_username inputs with
    | none => none
    | some u0 =>
      let (usernames, nd2) := json_phase blacklist (e :: rest) u0 [] nd1
      let nd3 :=
        if srcs_json ≠ [] then
          remove_missing nd2 (srcs_json.filter fun x => x ∉ usernames)
        else nd2
      some (nd3, usernames)

/-- The whole followers part of `__reload_streamers` (lines 355-384): fetch
and blacklist-filter the followed list, add the new ones, prune the
unfollowed ones.  Returns the updated accumulators and the new
`sources_usernames["FOLLOWERS"]`. -/
def followers_stage (tw : TwitchOracle) (blacklist : List String)
    (srcs_followers : List String) (followers : Bool) (nd3 : NameDict) :
    NameDict × List String :=
  if followers then
    let fol := tw.get_followers.filter fun x => x ∉ blacklist
    let nd4 := followers_phase fol nd3
    let nd5 :=
      if srcs_followers ≠ [] then
        remove_missing nd4 (srcs_followers.filter fun x => x ∉ fol)
      else nd4
    (nd5, fol)
  else (nd3, srcs_followers)

/-- `__reload_streamers` end to end.  `json` is the parsed content of the
tracking file (`none` when no file was given).  `none` models the two
crashes the source can hit: the JSON loop's `NameError` on an unassigned
`username` variable, and a `KeyError` in the registration loop (unreachable
here, since the phases keep names and dict keys equal). -/
def reload_streamers (tw : TwitchOracle) (dflt : StreamerSettings)
    (srcs : SourcesUsernames) (existing : List Streamer)
    (inputs : List StreamerInput) (blacklist : List String)
    (json : Option (List (String × StreamerSettings))) (followers : Bool) :
    Option ReloadResult :=
  let nd1 := phase_static blacklist inputs (phase_existing blacklist existing)
  match json_stage blacklist srcs.json_file inputs json nd1 with
  | none => none
  | some (nd3, new_json_src) =>
    let fs := followers_stage tw blacklist srcs.followers followers nd3
    match resolve_loop tw dflt fs.1.2 fs.1.1 with
    | none => none
    | some (arr, logs) =>
      some { streamers_array := init_pass tw arr
             streamers_name := fs.1.1
             dict := fs.1.2
             sources := { json_file := new_json_src, followers := fs.2 }
             logs := logs }

/-- The structural invariant the reload phases maintain over
`(streamers_name, streamers_dict)`: the name list has no duplicates, the
dict's keys in order are exactly the name list, and every stored streamer
carries its key as its username.  The third component holds only when the
raw names of each source are already normalized — a tracking-file key such
as `Foo` is stored raw while its streamer's username normalizes to `foo`. -/
def NDInv (nd : NameDict) : Prop :=
  nd.1.Nodup ∧ nd.2.map Prod.fst = nd.1 ∧ ∀ p ∈ nd.2, p.2.username = p.1

/-- The key-level part of the invariant: duplicate-free names equal to the
dict keys in order.  Unlike `NDInv` it holds with no assumption on how the
sources' raw names normalize. -/
def NDKeys (nd : NameDict) : Prop :=
  nd.1.Nodup ∧ nd.2.map Prod.fst = nd.1

/- ===== run / mine (lines 129-260) ===== -/

/-- Modelled from the spec: `at_least_one_value_in_settings_is(streamers,
"make_predictions", True)` from the utils module (not among the sources
here); per the call site comment it checks whether "we have at least one
streamer with settings = make_predictions True". -/
def at_least_one_make_predictions (ss : List Streamer) : Bool :=
  ss.any fun s => s.settings.make_predictions == some true

/-- Modelled from the spec: the same utils helper for the `claim_drops`
setting. -/
def at_least_one_claim_drops (ss : List Streamer) : Bool :=
  ss.any fun s => s.settings.claim_drops == some true

/-- A pubsub topic as built at the run() call sites: topic kind plus either
the viewer's user id or the target streamer's username. -/
structure PubsubTopic where
  kind : String
  user_id : Option String
  streamer : Option String
deriving DecidableEq, Repr

/-- The outward-visible actions run() performs, in order. -/
inductive Effect where
  /-- `logger.error("You can't start multiple sessions of this instance!")`. -/
  | log_error
  /-- `self.twitch.login()`. -/
  | login
  /-- `self.twitch.claim_all_drops_from_inventory()`. -/
  | claim_all_drops
  /-- Spawning and starting a worker thread with the given name. -/
  | spawn_thread (name : String)
  /-- `self.ws_pool.submit(topic)`. -/
  | submit_topic (topic : PubsubTopic)
deriving DecidableEq, Repr

/-- The miner's own mutable state (the `__slots__` fields the claims touch;
the configuration fields are carried too so that "no field is modified" is
expressible). -/
structure MinerState where
  running : Bool
  claim_drops_startup : Bool
  start_datetime : Option Nat
  streamers : List Streamer
  events_predictions : EventStore
  base_points : BasePoints
  sources : SourcesUsernames
  minute_watcher_spawned : Bool
  sync_campaigns_spawned : Bool
  ws_pool_created : Bool

/-- The topic-submission effects of run()'s per-streamer loop (lines
221-232): playback for everyone, raid / predictions topics per settings. -/
def streamer_topics (ss : List Streamer) : List Effect :=
  ss.foldl
    (fun acc s =>
      acc
      ++ [Effect.submit_topic
            { kind := "video-playback-by-id", user_id := none,
              streamer := some s.username }]
      ++ (if s.settings.follow_raid = some true then
            [Effect.submit_topic
              { kind := "raid", user_id := none, streamer := some s.username }]
          else [])
      ++ (if s.settings.make_predictions = some true then
            [Effect.submit_topic
              { kind := "predictions-channel-v1", user_id := none,
                streamer := some s.username }]
          else []))
    []

/-- run() up to the entry of its main `while self.running` loop (the loop
body's liveness sweep is `liveness_sweep`, its periodic refresh re-runs
`reload_streamers` and `save_original`).  `now` is the clock read for
`start_datetime`, `user_id` the logged-in viewer's id.  When a session is
already running the method only logs an error and returns; otherwise it
flips the flags, logs in, claims startup drops when configured, reloads the
streamer list, records baselines, spawns the workers and submits the pubsub
topics.  `none` propagates a crash of `reload_streamers`. -/
def run (tw : TwitchOracle) (dflt : StreamerSettings) (now : Nat)
    (user_id : String) (st : MinerState) (inputs : List StreamerInput)
    (json : Option (List (String × StreamerSettings)))
    (blacklist : List String) (followers : Bool) :
    Option (MinerState × List Effect) :=
  if st.running then some (st, [Effect.log_error])
  else
    match reload_streamers tw dflt st.sources st.streamers inputs blacklist
        json followers with
    | none => none
    | some r =>
      let ss := r.streamers_array
      let base := save_original ss st.base_points
      let mp := at_least_one_make_predictions ss
      let cd := at_least_one_claim_drops ss
      let effects :=
        [Effect.login]
        ++ (if st.claim_drops_startup then [Effect.claim_all_drops] else [])
        ++ (if cd then [Effect.spawn_thread "Sync campaigns/inventory"]
            else [])
        ++ [Effect.spawn_thread "Minute watcher"]
        ++ [Effect.submit_topic
              { kind := "community-points-user-v1", user_id := some user_id,
                streamer := none }]
        ++ (if mp then
              [Effect.submit_topic
                { kind := "predictions-user-v1", user_id := some user_id,
                  streamer := none }]
            else [])
        ++ streamer_topics ss
      some
        ({ st with
            running := true
            start_datetime := some now
            streamers := ss
            base_points := base
            sources := r.sources
            minute_watcher_spawned := true
            sync_campaigns_spawned := cd
            ws_pool_created := true }, effects)

/-- `mine` forwards its arguments to `run` unchanged. -/
def mine (tw : TwitchOracle) (dflt : StreamerSettings) (now : Nat)
    (user_id : String) (st : MinerState) (inputs : List StreamerInput)
    (json : Option (List (String × StreamerSettings)))
    (blacklist : List String) (followers : Bool) :
    Option (MinerState × List Effect) :=
  run tw dflt now user_id st inputs json blacklist followers

/- ===== Concrete instances used to evaluate the theorems ===== -/

/-- A tracked streamer that received no point delta this session: balance
100, empty history. -/
def c3_quiet : Streamer :=
  { username := "a", channel_id := some "1", channel_points := 100,
    history := [], is_online := true, viewer_is_mod := false,
    init_processed := true, irc_chat := false, settings := emptySettings }

/-- The same streamer after a point-update frame raised its balance to 150
with a recorded +50 delta. -/
def c3_active : Streamer :=
  { c3_quiet with channel_points := 150, history := [(50, "WATCH")] }

/-- A Twitch client on which the viewer moderates every channel. -/
def c4_tw : TwitchOracle :=
  { get_channel_id := fun _ => some "1", channel_points := fun _ => 500,
    is_online := fun _ => true, viewer_is_mod := fun _ => true,
    get_followers := [] }

/-- A not-yet-initialized streamer with predictions enabled. -/
def c4_s : Streamer :=
  { username := "modded", channel_id := some "2", channel_points := 0,
    history := [], is_online := false, viewer_is_mod := false,
    init_processed := false, irc_chat := false,
    settings := { emptySettings with make_predictions := some true } }

/-- A Twitch client that cannot resolve the channel `ghost`. -/
def c5_tw : TwitchOracle :=
  { get_channel_id := fun u => if u = "ghost" then none else some "9",
    channel_points := fun _ => 0, is_online := fun _ => false,
    viewer_is_mod := fun _ => false, get_followers := [] }

/-- A fresh streamer named `ghost`, not yet initialized. -/
def c5_bad : Streamer := mkStreamer "ghost" emptySettings

/-- A registration dict holding two resolvable streamers and `ghost`. -/
def c5_dict : Dict :=
  [("good1", mkStreamer "good1" emptySettings),
    ("ghost", c5_bad),
    ("good2", mkStreamer "good2" emptySettings)]

/-- What registration makes of a resolvable fresh streamer of `c5_dict`. -/
def c5_good (u : String) : Streamer :=
  { mkStreamer u emptySettings with channel_id := some "9" }

/-- The registration loop's output on `[good1, ghost, good2]`. -/
def c5_loop_result : List Streamer × List String :=
  ([c5_good "good1", c5_good "good2"], [notFoundMsg "ghost"])

/-- A streamer with predictions enabled, as the owner of recap events. -/
def c7_streamer : Streamer :=
  { username := "b", channel_id := some "3", channel_points := 0,
    history := [], is_online := true, viewer_is_mod := false,
    init_processed := true, irc_chat := false,
    settings := { emptySettings with make_predictions := some true } }

/-- A resolved prediction event on which no bet was confirmed. -/
def c7_resolved_nobet : PredictionEvent :=
  { streamer := c7_streamer, bet_confirmed := false,
    status := PredictionStatus.RESOLVED }

/-- A prediction event with a confirmed bet. -/
def c7_confirmed : PredictionEvent :=
  { streamer := c7_streamer, bet_confirmed := true,
    status := PredictionStatus.RESOLVED }

/-- A streamer whose baseline was recorded at 100 and whose balance later
reached 150. -/
def c8_refreshed : Streamer := { c3_quiet with channel_points := 150 }

/-- A Twitch client for the run() witness. -/
def c9_tw : TwitchOracle :=
  { get_channel_id := fun _ => some "1", channel_points := fun _ => 0,
    is_online := fun _ => false, viewer_is_mod := fun _ => false,
    get_followers := [] }

/-- A miner state with a session already running. -/
def c9_st : MinerState :=
  { running := true, claim_drops_startup := false, start_datetime := some 5,
    streamers := [c3_quiet], events_predictions := [],
    base_points := [("a", 100)],
    sources := { json_file := [], followers := [] },
    minute_watcher_spawned := true, sync_campaigns_spawned := false,
    ws_pool_created := true }

/-- A Twitch client for the reload witness: resolves every channel and
follows `foo` and `bar`. -/
def c10_tw : TwitchOracle :=
  { get_channel_id := fun _ => some "7", channel_points := fun _ => 10,
    is_online := fun _ => true, viewer_is_mod := fun _ => false,
    get_followers := ["foo", "bar"] }

/-- Settings supplied for `foo` by the tracking file of the reload witness. -/
def c10_jset : StreamerSettings :=
  { emptySettings with make_predictions := some true }

/-- The streamer `foo` as the reload witness returns it: supplied by the
static list, settings updated from the tracking file, then resolved and
initialized. -/
def c10_foo : Streamer :=
  { username := "foo", channel_id := some "7", channel_points := 10,
    history := [], is_online := true, viewer_is_mod := false,
    init_processed := true, irc_chat := false, settings := c10_jset }

/-- The streamer `bar`, discovered via the followed listing only. -/
def c10_bar : Streamer :=
  { c10_foo with username := "bar", settings := emptySettings }

/-- The reload witness's full expected result: `foo` supplied by static
list, tracking file and followed listing yields one entry; `bar` is
appended after it. -/
def c10_expected : ReloadResult :=
  { streamers_array := [c10_foo, c10_bar]
    streamers_name := ["foo", "bar"]
    dict := [("foo", mkStreamer "foo" c10_jset),
      ("bar", mkStreamer "bar" emptySettings)]
    sources := { json_file := ["foo"], followers := ["foo", "bar"] }
    logs := [] }

/-- The streamer registered from the static entry `foo` of the
counterexample reload, resolved and initialized. -/
def c10x_first : Streamer :=
  { username := "foo", channel_id := some "7", channel_points := 10,
    history := [], is_online := true, viewer_is_mod := false,
    init_processed := true, irc_chat := false, settings := emptySettings }

/-- The second entry the counterexample reload registers under the raw
tracking-file key `Foo`: its constructor-normalized username is `foo`
again. -/
def c10x_second : Streamer := { c10x_first with settings := c10_jset }

/-- What reloading with static list `[foo]` and tracking file `[Foo]`
returns: the raw key `Foo` passes the dict check, so the array carries two
entries whose usernames are both `foo`. -/
def c10x_result : ReloadResult :=
  { streamers_array := [c10x_first, c10x_second]
    streamers_name := ["foo", "Foo"]
    dict := [("foo", mkStreamer "foo" emptySettings),
      ("Foo", mkStreamer "Foo" c10_jset)]
    sources := { json_file := ["Foo"], followers := [] }
    logs := [] }

end Miner

namespace Miner

/- ===== General lemmas about association-list lookup ===== -/

theorem lookup_eq_none_iff {β : Type} (l : List (String × β)) (u : String) :
    l.lookup u = none ↔ u ∉ l.map Prod.fst := by
  induction l with
  | nil => simp [List.lookup]
  | cons p rest ih =>
    obtain ⟨k, b⟩ := p
    cases hk : (u == k) with
    | true =>
      have he : u = k := eq_of_beq hk
      subst he
      simp [List.lookup, hk]
    | false =>
      have hne : u ≠ k := by
        intro he; subst he; simp at hk
      simp [List.lookup, hk, hne, ih]

theorem lookup_mem {β : Type} {l : List (String × β)} {u : String} {v : β}
    (h : l.lookup u = some v) : (u, v) ∈ l := by
  induction l with
  | nil => simp [List.lookup] at h
  | cons p rest ih =>
    obtain ⟨k, b⟩ := p
    cases hk : (u == k) with
    | true =>
      have he : u = k := eq_of_beq hk
      subst he
      simp only [List.lookup, hk] at h
      obtain rfl : b = v := by simpa using h
      exact List.mem_cons_self _ _
    | false =>
      simp only [List.lookup, hk] at h
      exact List.mem_cons_of_mem _ (ih h)

theorem lookup_append_some {β : Type} {l₁ : List (String × β)}
    (l₂ : List (String × β)) {u : String} {v : β}
    (h : l₁.lookup u = some v) : (l₁ ++ l₂).lookup u = some v := by
  induction l₁ with
  | nil => simp [List.lookup] at h
  | cons p rest ih =>
    obtain ⟨k, b⟩ := p
    cases hk : (u == k) with
    | true =>
      simp only [List.cons_append, List.lookup, hk] at h ⊢
      exact h
    | false =>
      simp only [List.cons_append, List.lookup, hk] at h ⊢
      exact ih h

/- ===== C1 ===== -/

/-- C1: on a liveness-sweep pass, the connection at index `i` gets a
reconnect triggered if and only if its reconnect-in-progress flag is false,
its last-ping age exceeds ten minutes, and internet reachability is
confirmed. -/
theorem C1_liveness_trigger_iff (pool : List WSConn) (internet : Bool)
    (i : Nat) (ws : WSConn) (h : pool.get? i = some ws) :
    i ∈ liveness_sweep pool internet ↔
      (ws.is_reconneting = false ∧ ws.elapsed_last_ping > 10 ∧
        internet = true) := by
  have hlen : i < pool.length := by
    by_contra hc
    rw [List.get?_eq_none.mpr (le_of_not_lt hc)] at h
    exact Option.noConfusion h
  rw [liveness_sweep, List.mem_filter, List.mem_range, h]
  simp [should_reconnect, hlen, Bool.and_eq_true, Bool.not_eq_true',
    decide_eq_true_eq, and_assoc]

/-- C1 at a concrete pool: one connection, not reconnecting, last ping 11
minutes old, internet up — index 0 is reconnected. -/
theorem C1_liveness_trigger_iff_witness :
    0 ∈ liveness_sweep [WSConn.mk false 11] true :=
  (C1_liveness_trigger_iff [WSConn.mk false 11] true 0 (WSConn.mk false 11)
      rfl).mpr ⟨rfl, by norm_num, rfl⟩

/- ===== C2 ===== -/

/-- The drain loop completes, leaving every guard unlocked, whenever every
held guard still has a live holder that will release it. -/
theorem drain_mutexes_complete : ∀ ms : List MutexState,
    (∀ m ∈ ms, m.locked = true → m.holder_will_release = true) →
    ∃ ms', drain_mutexes ms = some ms' ∧ ∀ m' ∈ ms', m'.locked = false := by
  intro ms
  induction ms with
  | nil => exact fun _ => ⟨[], rfl, by simp⟩
  | cons m rest ih =>
    intro h
    obtain ⟨ms', hd, hall⟩ := ih fun m' hm' => h m' (List.mem_cons_of_mem _ hm')
    cases hl : m.locked with
    | true =>
      have hr : m.holder_will_release = true := h m (List.mem_cons_self _ _) hl
      refine ⟨{ m with locked := false } :: ms', ?_, ?_⟩
      · simp [drain_mutexes, drain_mutex, hl, hr, hd]
      · intro m' hm'
        rcases List.mem_cons.mp hm' with h1 | h1
        · subst h1; rfl
        · exact hall m' h1
    | false =>
      refine ⟨m :: ms', ?_, ?_⟩
      · simp [drain_mutexes, drain_mutex, hl, hd]
      · intro m' hm'
        rcases List.mem_cons.mp hm' with h1 | h1
        · subst h1; exact hl
        · exact hall m' h1

/-- C2 counterexample: a single guard left acquired by a terminated worker
(no live thread will release it) makes the drain loop's blocking `acquire`
never return — shutdown does not complete, no final report is reached. -/
theorem C2_counterexample :
    drain_mutexes [{ locked := true, holder_will_release := false }] =
      none := rfl

/-- C2 (amended): the drain loop runs before the final report and acquires
and releases each held guard, so it leaves no guard held — provided every
held guard's holder is still live and eventually releases it; a guard left
permanently held blocks the drain (`C2_counterexample`). -/
theorem C2_drain_guards (ms : List MutexState)
    (h : ∀ m ∈ ms, m.locked = true → m.holder_will_release = true) :
    (∃ ms', drain_mutexes ms = some ms' ∧ ∀ m' ∈ ms', m'.locked = false) ∧
      ∀ mw sync : Bool,
        (end_steps mw sync).indexOf ShutdownStep.drain_guards <
          (end_steps mw sync).indexOf ShutdownStep.print_report := by
  refine ⟨drain_mutexes_complete ms h, ?_⟩
  intro mw sync
  cases mw <;> cases sync <;> decide

/-- C2 at a concrete input: one guard held by a live holder, one free guard —
the drain completes with every guard unlocked. -/
theorem C2_drain_guards_witness :
    (∃ ms', drain_mutexes
        [{ locked := true, holder_will_release := true },
          { locked := false, holder_will_release := false }] = some ms' ∧
        ∀ m' ∈ ms', m'.locked = false) ∧
      ∀ mw sync : Bool,
        (end_steps mw sync).indexOf ShutdownStep.drain_guards <
          (end_steps mw sync).indexOf ShutdownStep.print_report :=
  C2_drain_guards _ (by decide)

/- ===== C3 ===== -/

/-- C3 counterexample: a tracked entity with an empty history is absent from
the final gain report, although the claim asks for a delta line for every
tracked entity. -/
theorem C3_counterexample :
    c3_quiet ∈ [c3_quiet] ∧
      report_gains [c3_quiet] (save_original [c3_quiet] []) = [] := by
  exact ⟨List.mem_singleton.mpr rfl, by decide⟩

/-- C3 (amended): every tracked entity whose history of point deltas is
non-empty is reported with delta current balance minus the recorded
session-start baseline. -/
theorem C3_gains_reported (ss : List Streamer) (bp : BasePoints)
    (s : Streamer) (b : Int) (hmem : s ∈ ss) (hh : s.history ≠ [])
    (hb : bp.lookup s.username = some b) :
    (s.username, s.channel_points - b) ∈ report_gains ss bp := by
  have h1 : s ∈ ss.filter fun s => s.history ≠ [] :=
    List.mem_filter.mpr ⟨hmem, by simpa using hh⟩
  have h2 := List.mem_map_of_mem
    (fun s : Streamer =>
      (s.username, s.channel_points - ((bp.lookup s.username).getD 0))) h1
  simpa [report_gains, hb] using h2

/-- C3 at a concrete input: an entity registered at 100 whose balance became
150 (history non-empty) is reported as having gained 50. -/
theorem C3_gains_reported_witness :
    ("a", (50 : Int)) ∈ report_gains [c3_active] (save_original [c3_quiet] []) := by
  have h := C3_gains_reported [c3_active] (save_original [c3_quiet] [])
    c3_active 100 (List.mem_singleton.mpr rfl) (by decide) (by decide)
  simpa [c3_active, c3_quiet] using h

/- ===== C4 ===== -/

/-- C4: an entity the viewer moderates (per the is-moderator check of the
initialization pass) leaves that pass with `make_predictions` set to false
and marked initialized, i.e. betting on it is disabled before it becomes
active. -/
theorem C4_moderator_disables_predictions (tw : TwitchOracle)
    (ss : List Streamer) (s : Streamer) (hmem : s ∈ ss)
    (hinit : s.init_processed = false)
    (hmod : tw.viewer_is_mod s.username = true) :
    init_streamer tw s ∈ init_pass tw ss ∧
      (init_streamer tw s).settings.make_predictions = some false ∧
      (init_streamer tw s).init_processed = true := by
  refine ⟨List.mem_map_of_mem _ hmem, ?_, ?_⟩ <;>
    simp [init_streamer, hinit, hmod]

/-- C4 at a concrete input: a fresh streamer with predictions enabled, on a
client where the viewer moderates every channel. -/
theorem C4_moderator_disables_predictions_witness :
    init_streamer c4_tw c4_s ∈ init_pass c4_tw [c4_s] ∧
      (init_streamer c4_tw c4_s).settings.make_predictions = some false ∧
      (init_streamer c4_tw c4_s).init_processed = true :=
  C4_moderator_disables_predictions c4_tw [c4_s] c4_s
    (List.mem_singleton.mpr rfl) rfl rfl

/- ===== C6 ===== -/

/-- C6 counterexample: with both workers spawned, the shutdown sequence
contains a worker join with no timeout, refuting the bounded-wait claim. -/
theorem C6_counterexample :
    ¬ ∀ s ∈ end_steps true true, is_unbounded_join s = false := by decide

/-- C6 (amended): the shutdown sequence joins each spawned worker (the
minute watcher and, when spawned, the campaign-sync thread), but every such
join passes no timeout: the wait is unbounded, and boundedness rests on the
workers observing the cleared running flag. -/
theorem C6_joins_are_unbounded :
    (∀ mw sync : Bool, (end_steps mw sync).filter is_join =
        (end_steps mw sync).filter is_unbounded_join) ∧
      (end_steps true true).filter is_join =
        [ShutdownStep.join_worker "Minute watcher" none,
          ShutdownStep.join_worker "Sync campaigns/inventory" none] := by
  constructor
  · intro mw sync; cases mw <;> cases sync <;> decide
  · decide

/- ===== C7 ===== -/

/-- C7 counterexample: a resolved prediction event retained in the store on
which no bet was confirmed gets no recap line in the final report. -/
theorem C7_counterexample :
    ("e1", c7_resolved_nobet) ∈ ([("e1", c7_resolved_nobet)] : EventStore) ∧
      c7_resolved_nobet.status = PredictionStatus.RESOLVED ∧
      report_recaps [("e1", c7_resolved_nobet)] = [] := by decide

/-- C7 (amended): the final summary includes a recap for every retained
prediction event whose bet was confirmed and whose streamer has
`make_predictions` enabled — the resolution status is not consulted — and
the shutdown sequence ends with `sys.exit(0)`. -/
theorem C7_recap_for_confirmed_bets (events : EventStore) (id : String)
    (e : PredictionEvent) (hmem : (id, e) ∈ events)
    (hbet : e.bet_confirmed = true)
    (hmp : e.streamer.settings.make_predictions = some true) :
    id ∈ report_recaps events ∧
      ∀ mw sync : Bool,
        (end_steps mw sync).getLast? = some (ShutdownStep.sys_exit 0) := by
  constructor
  · have h1 : (id, e) ∈ events.filter fun p =>
        p.2.bet_confirmed
          && (p.2.streamer.settings.make_predictions == some true) :=
      List.mem_filter.mpr ⟨hmem, by simp [hbet, hmp]⟩
    simpa [report_recaps] using List.mem_map_of_mem Prod.fst h1
  · intro mw sync; cases mw <;> cases sync <;> rfl

/-- C7 at a concrete input: a store with one no-bet event and one
confirmed-bet event recaps the latter, and shutdown's last step is exit 0. -/
theorem C7_recap_for_confirmed_bets_witness :
    "e2" ∈ report_recaps [("e1", c7_resolved_nobet), ("e2", c7_confirmed)] ∧
      ∀ mw sync : Bool,
        (end_steps mw sync).getLast? = some (ShutdownStep.sys_exit 0) :=
  C7_recap_for_confirmed_bets _ "e2" c7_confirmed (by decide) rfl rfl

/- ===== C8 ===== -/

/-- C8: `__save_original` never overwrites an existing baseline: a username
already bound in `base_points` keeps its recorded balance through any
further `__save_original` call (hence through any number of refresh
cycles). -/
theorem C8_baseline_never_overwritten (ss : List Streamer) (bp : BasePoints)
    (u : String) (v : Int) (h : bp.lookup u = some v) :
    (save_original ss bp).lookup u = some v := by
  induction ss generalizing bp with
  | nil => simpa [save_original] using h
  | cons s rest ih =>
    have hstep : save_original (s :: rest) bp =
        save_original rest
          (if (bp.lookup s.username).isSome then bp
           else bp ++ [(s.username, s.channel_points)]) := by
      simp [save_original]
    by_cases hbs : (bp.lookup s.username).isSome
    · rw [hstep, if_pos hbs]; exact ih bp h
    · rw [hstep, if_neg hbs]; exact ih _ (lookup_append_some _ h)

/-- C8 at a concrete input: the baseline 100 for `a` survives a refresh
cycle in which the streamer's balance is 150. -/
theorem C8_baseline_never_overwritten_witness :
    (save_original [c8_refreshed] [("a", 100)]).lookup "a" = some 100 :=
  C8_baseline_never_overwritten [c8_refreshed] [("a", 100)] "a" 100 rfl

/- ===== C9 ===== -/

/-- C9: calling run (or mine, which forwards to run) while a session is
already running returns the state unchanged with a lone error-log effect:
no login, no thread spawn, no topic submission, no field modified. -/
theorem C9_run_noop_when_running (tw : TwitchOracle)
    (dflt : StreamerSettings) (now : Nat) (user_id : String)
    (st : MinerState) (inputs : List StreamerInput)
    (json : Option (List (String × StreamerSettings)))
    (blacklist : List String) (followers : Bool)
    (h : st.running = true) :
    run tw dflt now user_id st inputs json blacklist followers =
        some (st, [Effect.log_error]) ∧
      mine tw dflt now user_id st inputs json blacklist followers =
        run tw dflt now user_id st inputs json blacklist followers := by
  refine ⟨?_, rfl⟩
  simp [run, h]

/-- C9 at a concrete input: a miner state with `running = true`. -/
theorem C9_run_noop_when_running_witness :
    run c9_tw emptySettings 0 "me" c9_st [] none [] false =
        some (c9_st, [Effect.log_error]) ∧
      mine c9_tw emptySettings 0 "me" c9_st [] none [] false =
        run c9_tw emptySettings 0 "me" c9_st [] none [] false :=
  C9_run_noop_when_running c9_tw emptySettings 0 "me" c9_st [] none [] false
    rfl

end Miner

namespace Miner

/- ===== C5 ===== -/

/-- The registration loop distributes over list append: the streamers and
log lines of a combined pass are the concatenations of each part's. -/
theorem resolve_loop_append (tw : TwitchOracle) (dflt : StreamerSettings)
    (d : Dict) (l1 l2 : List String) :
    resolve_loop tw dflt d (l1 ++ l2) =
      match resolve_loop tw dflt d l1, resolve_loop tw dflt d l2 with
      | some (a1, g1), some (a2, g2) => some (a1 ++ a2, g1 ++ g2)
      | _, _ => none := by
  induction l1 with
  | nil =>
    cases h2 : resolve_loop tw dflt d l2 with
    | none => simp [resolve_loop, h2]
    | some r => obtain ⟨a2, g2⟩ := r; simp [resolve_loop, h2]
  | cons u rest ih =>
    cases hl : d.lookup u with
    | none => simp [resolve_loop, hl]
    | some s =>
      simp only [List.cons_append, resolve_loop, hl]
      cases h1 : resolve_loop tw dflt d rest with
      | none => simp [ih, h1]
      | some r1 =>
        obtain ⟨a1, g1⟩ := r1
        cases h2 : resolve_loop tw dflt d l2 with
        | none =>
          cases hs : resolve_streamer tw dflt u s <;> simp [ih, h1, h2, hs]
        | some r2 =>
          obtain ⟨a2, g2⟩ := r2
          cases hs : resolve_streamer tw dflt u s <;> simp [ih, h1, h2, hs]

/-- C5: a username whose channel lookup fails with not-found is excluded
from the built array (its per-item body yields nothing), a reason is
logged, and the loop's output for all other usernames is exactly what it
would have been had the failing username not been supplied at all. -/
theorem C5_unresolvable_excluded (tw : TwitchOracle)
    (dflt : StreamerSettings) (d : Dict) (xs ys : List String)
    (badu : String) (bad : Streamer) (h1 : d.lookup badu = some bad)
    (h2 : bad.init_processed = false)
    (h3 : tw.get_channel_id badu = none) :
    resolve_streamer tw dflt badu bad = none ∧
      ∀ res, resolve_loop tw dflt d (xs ++ badu :: ys) = some res →
        ∃ res', resolve_loop tw dflt d (xs ++ ys) = some res' ∧
          res.1 = res'.1 ∧ notFoundMsg badu ∈ res.2 := by
  have hbad : resolve_streamer tw dflt badu bad = none := by
    simp [resolve_streamer, h2, h3]
  refine ⟨hbad, ?_⟩
  intro res hres
  have hcons : resolve_loop tw dflt d (badu :: ys) =
      match resolve_loop tw dflt d ys with
      | none => none
      | some (arr, logs) => some (arr, notFoundMsg badu :: logs) := by
    cases hy : resolve_loop tw dflt d ys with
    | none => simp [resolve_loop, h1, hy]
    | some r => obtain ⟨a, g⟩ := r; simp [resolve_loop, h1, hy, hbad]
  rw [resolve_loop_append, hcons] at hres
  rw [resolve_loop_append]
  cases hx : resolve_loop tw dflt d xs with
  | none => rw [hx] at hres; simp at hres
  | some rx =>
    obtain ⟨ax, gx⟩ := rx
    rw [hx] at hres
    cases hy : resolve_loop tw dflt d ys with
    | none => rw [hy] at hres; simp at hres
    | some ry =>
      obtain ⟨ay, gy⟩ := ry
      rw [hy] at hres
      obtain rfl : res = (ax ++ ay, gx ++ notFoundMsg badu :: gy) := by
        simpa using hres.symm
      exact ⟨(ax ++ ay, gx ++ gy), rfl, rfl, by simp⟩

/-- C5 at a concrete input: `ghost` cannot be resolved; the loop output on
`[good1, ghost, good2]` carries the same streamers as on `[good1, good2]`
plus a logged reason. -/
theorem C5_unresolvable_excluded_witness :
    ∃ res', resolve_loop c5_tw emptySettings c5_dict (["good1"] ++ ["good2"]) =
        some res' ∧
      c5_loop_result.1 = res'.1 ∧ notFoundMsg "ghost" ∈ c5_loop_result.2 :=
  (C5_unresolvable_excluded c5_tw emptySettings c5_dict ["good1"] ["good2"]
      "ghost" c5_bad (by decide) rfl (by decide)).2 c5_loop_result (by decide)

end Miner

namespace Miner

/- ===== C10: invariants of the reload phases ===== -/

theorem mem_keys_lookup_isSome {β : Type} {l : List (String × β)}
    {u : String} (h : u ∈ l.map Prod.fst) : (l.lookup u).isSome = true := by
  rcases hl : l.lookup u with _ | v
  · exact absurd h ((lookup_eq_none_iff l u).mp hl)
  · rfl

theorem nodup_append_singleton {α : Type} {l : List α} {a : α}
    (h : l.Nodup) (ha : a ∉ l) : (l ++ [a]).Nodup := by
  rw [List.nodup_append_comm]
  exact List.nodup_cons.mpr ⟨ha, h⟩

theorem input_streamer_username (inp : StreamerInput) :
    (input_streamer inp).username = input_username inp := by
  cases inp <;> rfl

/-- Appending a fresh key whose streamer carries it as username preserves
the accumulator invariant. -/
theorem NDInv_append (nd : NameDict) (u : String) (s : Streamer)
    (h : NDInv nd) (hu : u ∉ nd.1) (hs : s.username = u) :
    NDInv (nd.1 ++ [u], nd.2 ++ [(u, s)]) := by
  refine ⟨nodup_append_singleton h.1 hu, ?_, ?_⟩
  · simp [h.2.1]
  · intro p hp
    rcases List.mem_append.mp hp with h1 | h1
    · exact h.2.2 p h1
    · obtain rfl : p = (u, s) := by simpa using h1
      simpa using hs

theorem phase_existing_inv (blacklist : List String)
    (existing : List Streamer)
    (hex : (existing.map Streamer.username).Nodup) :
    NDInv (phase_existing blacklist existing) := by
  have main : ∀ (l : List Streamer) (nd : NameDict), NDInv nd →
      (∀ s ∈ l, s.username ∉ nd.1) → (l.map Streamer.username).Nodup →
      NDInv (l.foldl
        (fun nd st =>
          if st.username ∈ blacklist then nd
          else (nd.1 ++ [st.username], nd.2 ++ [(st.username, st)])) nd) := by
    intro l
    induction l with
    | nil => intro nd h _ _; exact h
    | cons st rest ih =>
      intro nd h hdisj hnd
      simp only [List.map_cons, List.nodup_cons] at hnd
      rw [List.foldl_cons]
      by_cases hb : st.username ∈ blacklist
      · rw [if_pos hb]
        exact ih nd h (fun s hs => hdisj s (List.mem_cons_of_mem _ hs)) hnd.2
      · rw [if_neg hb]
        have hu : st.username ∉ nd.1 := hdisj st (List.mem_cons_self _ _)
        refine ih _ (NDInv_append nd st.username st h hu rfl) ?_ hnd.2
        intro s hs hmem
        rcases List.mem_append.mp hmem with h1 | h1
        · exact hdisj s (List.mem_cons_of_mem _ hs) h1
        · have he : s.username = st.username := by simpa using h1
          exact hnd.1 (he ▸ List.mem_map_of_mem Streamer.username hs)
  exact main existing ([], []) ⟨List.nodup_nil, rfl, by simp⟩ (by simp) hex

theorem phase_static_cons (blacklist : List String) (inp : StreamerInput)
    (rest : List StreamerInput) (nd : NameDict) :
    phase_static blacklist (inp :: rest) nd =
      phase_static blacklist rest
        (if (nd.2.lookup (input_username inp)) = none ∧
            input_username inp ∉ blacklist then
          (nd.1 ++ [input_username inp],
            nd.2 ++ [(input_username inp, input_streamer inp)])
        else nd) := rfl

theorem phase_static_inv (blacklist : List String) :
    ∀ (inputs : List StreamerInput) (nd : NameDict), NDInv nd →
      NDInv (phase_static blacklist inputs nd) := by
  intro inputs
  induction inputs with
  | nil => intro nd h; exact h
  | cons inp rest ih =>
    intro nd h
    rw [phase_static_cons]
    split
    · next hcond =>
      refine ih _ (NDInv_append nd _ _ h ?_ (input_streamer_username inp))
      rw [← h.2.1]
      exact (lookup_eq_none_iff _ _).mp hcond.1
    · exact ih nd h

theorem dict_update_settings_keys (d : Dict) (u : String)
    (s : StreamerSettings) :
    (dict_update_settings d u s).map Prod.fst = d.map Prod.fst := by
  induction d with
  | nil => rfl
  | cons p rest ih =>
    by_cases h : p.1 = u <;> simp [dict_update_settings, h] <;>
      simpa [dict_update_settings] using ih

theorem dict_update_settings_inv (nd : NameDict) (u : String)
    (s : StreamerSettings) (h : NDInv nd) :
    NDInv (nd.1, dict_update_settings nd.2 u s) := by
  refine ⟨h.1, ?_, ?_⟩
  · rw [dict_update_settings_keys]
    exact h.2.1
  · intro p hp
    simp only [dict_update_settings, List.mem_map] at hp
    obtain ⟨q, hq, rfl⟩ := hp
    by_cases hqu : q.1 = u <;> simpa [hqu] using h.2.2 q hq

theorem json_phase_cons (blacklist : List String) (ju : String)
    (js : StreamerSettings) (rest : List (String × StreamerSettings))
    (u0 : String) (us : List String) (nd : NameDict) :
    json_phase blacklist ((ju, js) :: rest) u0 us nd =
      if u0 ∈ blacklist then json_phase blacklist rest u0 us nd
      else if (nd.2.lookup ju).isSome then
        json_phase blacklist rest ju (us ++ [ju])
          (nd.1, dict_update_settings nd.2 ju js)
      else
        json_phase blacklist rest ju (us ++ [ju])
          (nd.1 ++ [ju], nd.2 ++ [(ju, mkStreamer ju js)]) := rfl

theorem json_phase_inv (blacklist : List String) :
    ∀ (entries : List (String × StreamerSettings)) (u0 : String)
      (us : List String) (nd : NameDict),
      (∀ e ∈ entries, normName e.1 = e.1) → NDInv nd →
      NDInv (json_phase blacklist entries u0 us nd).2 := by
  intro entries
  induction entries with
  | nil => intro u0 us nd _ h; exact h
  | cons e rest ih =>
    intro u0 us nd hn h
    obtain ⟨ju, js⟩ := e
    have hju : normName ju = ju := by
      simpa using hn (ju, js) (List.mem_cons_self _ _)
    have hnr : ∀ e ∈ rest, normName e.1 = e.1 :=
      fun e he => hn e (List.mem_cons_of_mem _ he)
    rw [json_phase_cons]
    split
    · exact ih u0 us nd hnr h
    · split
      · exact ih ju _ _ hnr (dict_update_settings_inv nd ju js h)
      · next hns =>
        refine ih ju _ _ hnr (NDInv_append nd ju (mkStreamer ju js) h ?_ hju)
        rw [← h.2.1]
        intro hmem
        exact hns (mem_keys_lookup_isSome hmem)

theorem remove_missing_cons (u : String) (items : List String)
    (nd : NameDict) :
    remove_missing nd (u :: items) =
      remove_missing
        (if u ∈ nd.1 then (nd.1.erase u, nd.2.filter fun p => p.1 ≠ u)
         else nd) items := rfl

theorem dict_filter_keys (d : Dict) (u : String) :
    (d.filter fun p => p.1 ≠ u).map Prod.fst =
      (d.map Prod.fst).filter fun k => k ≠ u := by
  induction d with
  | nil => rfl
  | cons p rest ih =>
    by_cases h : p.1 = u <;> simp [h] <;> simpa using ih

/-- On duplicate-free lists, erasing an element is filtering it out. -/
theorem erase_eq_filter_ne (l : List String) (u : String) (h : l.Nodup) :
    l.erase u = l.filter fun k => k ≠ u := by
  rw [List.Nodup.erase_eq_filter h u]
  apply List.filter_congr
  intro a _
  simp [bne, Bool.beq_eq_decide_eq]

theorem remove_missing_inv : ∀ (items : List String) (nd : NameDict),
    NDInv nd → NDInv (remove_missing nd items) := by
  intro items
  induction items with
  | nil => intro nd h; exact h
  | cons u rest ih =>
    intro nd h
    rw [remove_missing_cons]
    split
    · refine ih _ ⟨h.1.erase u, ?_, ?_⟩
      · rw [dict_filter_keys, h.2.1, erase_eq_filter_ne nd.1 u h.1]
      · intro p hp
        exact h.2.2 p (List.mem_of_mem_filter hp)
    · exact ih nd h

theorem followers_phase_cons (u : String) (rest : List String)
    (nd : NameDict) :
    followers_phase (u :: rest) nd =
      followers_phase rest
        (if (nd.2.lookup u).isSome then nd
         else (nd.1 ++ [u],
           nd.2 ++ [(u, mkStreamer (normName u) emptySettings)])) := rfl

theorem followers_phase_inv : ∀ (followed : List String),
    (∀ u ∈ followed, normName u = u) → ∀ nd : NameDict, NDInv nd →
      NDInv (followers_phase followed nd) := by
  intro followed
  induction followed with
  | nil => intro _ nd h; exact h
  | cons u rest ih =>
    intro hn nd h
    have hu : normName u = u := hn u (List.mem_cons_self _ _)
    have hnr : ∀ x ∈ rest, normName x = x :=
      fun x hx => hn x (List.mem_cons_of_mem _ hx)
    rw [followers_phase_cons]
    split
    · exact ih hnr nd h
    · next hns =>
      refine ih hnr _ (NDInv_append nd u (mkStreamer (normName u) emptySettings)
        h ?_ ?_)
      · rw [← h.2.1]
        intro hmem
        exact hns (mem_keys_lookup_isSome hmem)
      · show normName (normName u) = u
        rw [hu, hu]

end Miner

namespace Miner

theorem json_stage_inv (blacklist : List String) (srcs_json : List String)
    (inputs : List StreamerInput)
    (json : Option (List (String × StreamerSettings))) (nd1 : NameDict)
    (hjson : ∀ entries, json = some entries →
      ∀ e ∈ entries, normName e.1 = e.1)
    (h : NDInv nd1) :
    ∀ nd3 src,
      json_stage blacklist srcs_json inputs json nd1 = some (nd3, src) →
      NDInv nd3 := by
  intro nd3 src hok
  cases json with
  | none =>
    simp only [json_stage, Option.some.injEq, Prod.mk.injEq] at hok
    rw [← hok.1]
    exact h
  | some entries =>
    cases entries with
    | nil =>
      simp only [json_stage, Option.some.injEq, Prod.mk.injEq] at hok
      rw [← hok.1]
      split
      · exact remove_missing_inv _ nd1 h
      · exact h
    | cons e rest =>
      cases hl : last_assigned_username inputs with
      | none => simp [json_stage, hl] at hok
      | some u0 =>
        simp only [json_stage, hl] at hok
        have hinv2 : NDInv (json_phase blacklist (e :: rest) u0 [] nd1).2 :=
          json_phase_inv blacklist (e :: rest) u0 [] nd1
            (hjson (e :: rest) rfl) h
        rcases hp : json_phase blacklist (e :: rest) u0 [] nd1 with
          ⟨usernames, nd2⟩
        rw [hp] at hok hinv2
        simp only [Option.some.injEq, Prod.mk.injEq] at hok
        rw [← hok.1]
        split
        · exact remove_missing_inv _ nd2 hinv2
        · exact hinv2

theorem followers_stage_inv (tw : TwitchOracle) (blacklist : List String)
    (srcs_followers : List String) (followers : Bool) (nd3 : NameDict)
    (hfol : ∀ u ∈ tw.get_followers, normName u = u) (h : NDInv nd3) :
    NDInv (followers_stage tw blacklist srcs_followers followers nd3).1 := by
  cases followers with
  | false => exact h
  | true =>
    simp only [followers_stage]
    have hfol' : ∀ u ∈ tw.get_followers.filter fun x => x ∉ blacklist,
        normName u = u :=
      fun u hu => hfol u (List.mem_of_mem_filter hu)
    have h4 : NDInv (followers_phase
        (tw.get_followers.filter fun x => x ∉ blacklist) nd3) :=
      followers_phase_inv _ hfol' nd3 h
    by_cases hs : srcs_followers ≠ []
    · rw [if_pos hs]
      exact remove_missing_inv _ _ h4
    · rw [if_neg hs]
      exact h4

theorem resolve_streamer_username {tw : TwitchOracle}
    {dflt : StreamerSettings} {key : String} {s s' : Streamer}
    (h : resolve_streamer tw dflt key s = some s') :
    s'.username = s.username := by
  cases hi : s.init_processed with
  | true =>
    simp [resolve_streamer, hi] at h
    split at h <;> simp [← h]
  | false =>
    cases hg : tw.get_channel_id key with
    | none => simp [resolve_streamer, hi, hg] at h
    | some cid =>
      simp [resolve_streamer, hi, hg] at h
      split at h <;> simp [← h]

theorem resolve_loop_usernames_sublist (tw : TwitchOracle)
    (dflt : StreamerSettings) (d : Dict)
    (hinv : ∀ p ∈ d, p.2.username = p.1) :
    ∀ (names : List String) (arr : List Streamer) (logs : List String),
      resolve_loop tw dflt d names = some (arr, logs) →
      (arr.map Streamer.username).Sublist names := by
  intro names
  induction names with
  | nil =>
    intro arr logs h
    simp only [resolve_loop, Option.some.injEq, Prod.mk.injEq] at h
    rw [← h.1]
    simp
  | cons u rest ih =>
    intro arr logs h
    cases hl : d.lookup u with
    | none => simp [resolve_loop, hl] at h
    | some s =>
      cases hr : resolve_loop tw dflt d rest with
      | none => simp [resolve_loop, hl, hr] at h
      | some r =>
        obtain ⟨arr', logs'⟩ := r
        cases hs : resolve_streamer tw dflt u s with
        | none =>
          simp only [resolve_loop, hl, hr, hs, Option.some.injEq,
            Prod.mk.injEq] at h
          rw [← h.1]
          exact (ih arr' logs' hr).cons u
        | some s' =>
          simp only [resolve_loop, hl, hr, hs, Option.some.injEq,
            Prod.mk.injEq] at h
          rw [← h.1]
          have hu : s'.username = u := by
            rw [resolve_streamer_username hs]
            exact hinv (u, s) (lookup_mem hl)
          simp only [List.map_cons, hu]
          exact (ih arr' logs' hr).cons₂ u

theorem init_streamer_username (tw : TwitchOracle) (s : Streamer) :
    (init_streamer tw s).username = s.username := by
  cases hi : s.init_processed with
  | true => simp [init_streamer, hi]
  | false =>
    simp only [init_streamer, hi, Bool.false_eq_true, if_false]
    split <;> rfl

theorem init_pass_usernames (tw : TwitchOracle) (arr : List Streamer) :
    (init_pass tw arr).map Streamer.username = arr.map Streamer.username := by
  simp only [init_pass, List.map_map]
  induction arr with
  | nil => rfl
  | cons s rest ih => simp [Function.comp, init_streamer_username tw s, ih]

theorem phase_static_names_grow (blacklist : List String) :
    ∀ (inputs : List StreamerInput) (nd : NameDict),
      ∃ fresh, (phase_static blacklist inputs nd).1 = nd.1 ++ fresh := by
  intro inputs
  induction inputs with
  | nil => exact fun nd => ⟨[], by simp [phase_static]⟩
  | cons inp rest ih =>
    intro nd
    rw [phase_static_cons]
    split
    · obtain ⟨fresh, hf⟩ := ih (nd.1 ++ [input_username inp],
        nd.2 ++ [(input_username inp, input_streamer inp)])
      exact ⟨input_username inp :: fresh, by simpa using hf⟩
    · exact ih nd

theorem json_phase_names_grow (blacklist : List String) :
    ∀ (entries : List (String × StreamerSettings)) (u0 : String)
      (us : List String) (nd : NameDict),
      ∃ fresh, (json_phase blacklist entries u0 us nd).2.1 = nd.1 ++ fresh := by
  intro entries
  induction entries with
  | nil => exact fun u0 us nd => ⟨[], by simp [json_phase]⟩
  | cons e rest ih =>
    intro u0 us nd
    obtain ⟨ju, js⟩ := e
    rw [json_phase_cons]
    split
    · exact ih u0 us nd
    · split
      · exact ih ju (us ++ [ju]) (nd.1, dict_update_settings nd.2 ju js)
      · obtain ⟨fresh, hf⟩ := ih ju (us ++ [ju])
          (nd.1 ++ [ju], nd.2 ++ [(ju, mkStreamer ju js)])
        exact ⟨ju :: fresh, by simpa using hf⟩

theorem followers_phase_names_grow :
    ∀ (followed : List String) (nd : NameDict),
      ∃ fresh, (followers_phase followed nd).1 = nd.1 ++ fresh := by
  intro followed
  induction followed with
  | nil => exact fun nd => ⟨[], by simp [followers_phase]⟩
  | cons u rest ih =>
    intro nd
    rw [followers_phase_cons]
    split
    · exact ih nd
    · obtain ⟨fresh, hf⟩ := ih (nd.1 ++ [u],
        nd.2 ++ [(u, mkStreamer (normName u) emptySettings)])
      exact ⟨u :: fresh, by simpa using hf⟩

end Miner

namespace Miner

theorem NDKeys_of_NDInv {nd : NameDict} (h : NDInv nd) : NDKeys nd :=
  ⟨h.1, h.2.1⟩

theorem NDKeys_append (nd : NameDict) (u : String) (s : Streamer)
    (h : NDKeys nd) (hu : u ∉ nd.1) :
    NDKeys (nd.1 ++ [u], nd.2 ++ [(u, s)]) :=
  ⟨nodup_append_singleton h.1 hu, by simp [h.2]⟩

theorem json_phase_keys (blacklist : List String) :
    ∀ (entries : List (String × StreamerSettings)) (u0 : String)
      (us : List String) (nd : NameDict), NDKeys nd →
      NDKeys (json_phase blacklist entries u0 us nd).2 := by
  intro entries
  induction entries with
  | nil => intro u0 us nd h; exact h
  | cons e rest ih =>
    intro u0 us nd h
    obtain ⟨ju, js⟩ := e
    rw [json_phase_cons]
    split
    · exact ih u0 us nd h
    · split
      · refine ih ju _ _ ⟨h.1, ?_⟩
        rw [dict_update_settings_keys]
        exact h.2
      · next hns =>
        refine ih ju _ _ (NDKeys_append nd ju (mkStreamer ju js) h ?_)
        rw [← h.2]
        intro hmem
        exact hns (mem_keys_lookup_isSome hmem)

theorem remove_missing_keys : ∀ (items : List String) (nd : NameDict),
    NDKeys nd → NDKeys (remove_missing nd items) := by
  intro items
  induction items with
  | nil => intro nd h; exact h
  | cons u rest ih =>
    intro nd h
    rw [remove_missing_cons]
    split
    · refine ih _ ⟨h.1.erase u, ?_⟩
      rw [dict_filter_keys, h.2, erase_eq_filter_ne nd.1 u h.1]
    · exact ih nd h

theorem followers_phase_keys : ∀ (followed : List String) (nd : NameDict),
    NDKeys nd → NDKeys (followers_phase followed nd) := by
  intro followed
  induction followed with
  | nil => intro nd h; exact h
  | cons u rest ih =>
    intro nd h
    rw [followers_phase_cons]
    split
    · exact ih nd h
    · next hns =>
      refine ih _
        (NDKeys_append nd u (mkStreamer (normName u) emptySettings) h ?_)
      rw [← h.2]
      intro hmem
      exact hns (mem_keys_lookup_isSome hmem)

theorem json_stage_keys (blacklist : List String) (srcs_json : List String)
    (inputs : List StreamerInput)
    (json : Option (List (String × StreamerSettings))) (nd1 : NameDict)
    (h : NDKeys nd1) :
    ∀ nd3 src,
      json_stage blacklist srcs_json inputs json nd1 = some (nd3, src) →
      NDKeys nd3 := by
  intro nd3 src hok
  cases json with
  | none =>
    simp only [json_stage, Option.some.injEq, Prod.mk.injEq] at hok
    rw [← hok.1]
    exact h
  | some entries =>
    cases entries with
    | nil =>
      simp only [json_stage, Option.some.injEq, Prod.mk.injEq] at hok
      rw [← hok.1]
      split
      · exact remove_missing_keys _ nd1 h
      · exact h
    | cons e rest =>
      cases hl : last_assigned_username inputs with
      | none => simp [json_stage, hl] at hok
      | some u0 =>
        simp only [json_stage, hl] at hok
        have hk2 : NDKeys (json_phase blacklist (e :: rest) u0 [] nd1).2 :=
          json_phase_keys blacklist (e :: rest) u0 [] nd1 h
        rcases hp : json_phase blacklist (e :: rest) u0 [] nd1 with
          ⟨usernames, nd2⟩
        rw [hp] at hok hk2
        simp only [Option.some.injEq, Prod.mk.injEq] at hok
        rw [← hok.1]
        split
        · exact remove_missing_keys _ nd2 hk2
        · exact hk2

theorem followers_stage_keys (tw : TwitchOracle) (blacklist : List String)
    (srcs_followers : List String) (followers : Bool) (nd3 : NameDict)
    (h : NDKeys nd3) :
    NDKeys (followers_stage tw blacklist srcs_followers followers nd3).1 := by
  cases followers with
  | false => exact h
  | true =>
    simp only [followers_stage]
    have h4 : NDKeys (followers_phase
        (tw.get_followers.filter fun x => x ∉ blacklist) nd3) :=
      followers_phase_keys _ nd3 h
    by_cases hs : srcs_followers ≠ []
    · rw [if_pos hs]
      exact remove_missing_keys _ _ h4
    · rw [if_neg hs]
      exact h4

/-- C10 counterexample: the static list supplies `foo` and the tracking
file supplies the raw key `Foo`; line 329's `if username not in
streamers_dict` compares raw keys, so both are registered, and the
returned array carries two entries whose usernames are both `foo` — not at
most one entry per username. -/
theorem C10_counterexample :
    reload_streamers c10_tw emptySettings ⟨[], []⟩ []
        [StreamerInput.name "foo"] [] (some [("Foo", c10_jset)]) false =
      some c10x_result ∧
    c10x_result.streamers_array.map Streamer.username = ["foo", "foo"] ∧
    ¬ (c10x_result.streamers_array.map Streamer.username).Nodup := by decide

/-- C10 (amended): after any call to `__reload_streamers` starting from a
duplicate-free previous active list, the returned list has at most one
entry per registration key: `streamers_name` is duplicate-free, a
tracking-file entry whose username key is already registered only has that
entry's settings replaced (the name list is untouched), and every source
phase appends fresh keys at the end, so entries keep the order of their
first appearance across sources.  At-most-one-entry-per-*username*
additionally requires the tracking-file and follower names to be already
normalized — a raw file key differing only in case or whitespace from a
registered key yields a duplicate username (`C10_counterexample`). -/
theorem C10_reload_keyed_dedup (tw : TwitchOracle)
    (dflt : StreamerSettings) (srcs : SourcesUsernames)
    (existing : List Streamer) (inputs : List StreamerInput)
    (blacklist : List String)
    (json : Option (List (String × StreamerSettings))) (followers : Bool)
    (r : ReloadResult)
    (hex : (existing.map Streamer.username).Nodup)
    (hok : reload_streamers tw dflt srcs existing inputs blacklist json
      followers = some r) :
    r.streamers_name.Nodup ∧
      (∀ (ju : String) (js : StreamerSettings)
        (rest : List (String × StreamerSettings)) (u0 : String)
        (us : List String) (nd : NameDict), u0 ∉ blacklist →
        (nd.2.lookup ju).isSome = true →
        json_phase blacklist ((ju, js) :: rest) u0 us nd =
          json_phase blacklist rest ju (us ++ [ju])
            (nd.1, dict_update_settings nd.2 ju js)) ∧
      (∀ nd, ∃ fresh, (phase_static blacklist inputs nd).1 = nd.1 ++ fresh) ∧
      (∀ entries u0 us nd, ∃ fresh,
        (json_phase blacklist entries u0 us nd).2.1 = nd.1 ++ fresh) ∧
      (∀ fol nd, ∃ fresh, (followers_phase fol nd).1 = nd.1 ++ fresh) ∧
      ((∀ entries, json = some entries →
          ∀ e ∈ entries, normName e.1 = e.1) →
        (∀ u ∈ tw.get_followers, normName u = u) →
        (r.streamers_array.map Streamer.username).Nodup ∧
          (r.streamers_array.map Streamer.username).Sublist
            r.streamers_name) := by
  have hupd : ∀ (ju : String) (js : StreamerSettings)
      (rest : List (String × StreamerSettings)) (u0 : String)
      (us : List String) (nd : NameDict), u0 ∉ blacklist →
      (nd.2.lookup ju).isSome = true →
      json_phase blacklist ((ju, js) :: rest) u0 us nd =
        json_phase blacklist rest ju (us ++ [ju])
          (nd.1, dict_update_settings nd.2 ju js) := by
    intro ju js rest u0 us nd hu0 hsome
    rw [json_phase_cons, if_neg hu0, if_pos hsome]
  have hnd1 : NDInv (phase_static blacklist inputs
      (phase_existing blacklist existing)) :=
    phase_static_inv blacklist inputs _
      (phase_existing_inv blacklist existing hex)
  simp only [reload_streamers] at hok
  cases hjs : json_stage blacklist srcs.json_file inputs json
      (phase_static blacklist inputs (phase_existing blacklist existing)) with
  | none => rw [hjs] at hok; exact absurd hok (by simp)
  | some p =>
    obtain ⟨nd3, njs⟩ := p
    simp only [hjs] at hok
    have hk3 : NDKeys nd3 :=
      json_stage_keys blacklist srcs.json_file inputs json _
        (NDKeys_of_NDInv hnd1) nd3 njs hjs
    have hk5 : NDKeys
        (followers_stage tw blacklist srcs.followers followers nd3).1 :=
      followers_stage_keys tw blacklist srcs.followers followers nd3 hk3
    cases hres : resolve_loop tw dflt
        (followers_stage tw blacklist srcs.followers followers nd3).1.2
        (followers_stage tw blacklist srcs.followers followers nd3).1.1 with
    | none => rw [hres] at hok; simp at hok
    | some pr =>
      obtain ⟨arr, logs⟩ := pr
      simp only [hres, Option.some.injEq] at hok
      rw [← hok]
      refine ⟨hk5.1, hupd, phase_static_names_grow blacklist inputs,
        json_phase_names_grow blacklist, followers_phase_names_grow, ?_⟩
      intro hjson hfol
      have hnd3 : NDInv nd3 :=
        json_stage_inv blacklist srcs.json_file inputs json _ hjson hnd1
          nd3 njs hjs
      have hnd5 : NDInv
          (followers_stage tw blacklist srcs.followers followers nd3).1 :=
        followers_stage_inv tw blacklist srcs.followers followers nd3 hfol
          hnd3
      have hsub : (arr.map Streamer.username).Sublist
          (followers_stage tw blacklist srcs.followers followers nd3).1.1 :=
        resolve_loop_usernames_sublist tw dflt _ hnd5.2.2 _ arr logs hres
      have harr : ((init_pass tw arr).map Streamer.username).Sublist
          (followers_stage tw blacklist srcs.followers followers nd3).1.1 := by
        rw [init_pass_usernames]
        exact hsub
      exact ⟨harr.nodup hnd5.1, harr⟩

/-- C10 at a concrete input: `foo` supplied by the static list, the
tracking file (which only updates its settings) and the followed listing
(ignored as a duplicate); `bar` supplied by the followed listing only; all
supplied names normalized, so the username-level conjunct fires too. -/
theorem C10_reload_keyed_dedup_witness :
    c10_expected.streamers_name.Nodup ∧
      (∀ (ju : String) (js : StreamerSettings)
        (rest : List (String × StreamerSettings)) (u0 : String)
        (us : List String) (nd : NameDict), u0 ∉ ([] : List String) →
        (nd.2.lookup ju).isSome = true →
        json_phase [] ((ju, js) :: rest) u0 us nd =
          json_phase [] rest ju (us ++ [ju])
            (nd.1, dict_update_settings nd.2 ju js)) ∧
      (∀ nd, ∃ fresh,
        (phase_static [] [StreamerInput.name "foo"] nd).1 = nd.1 ++ fresh) ∧
      (∀ entries u0 us nd, ∃ fresh,
        (json_phase [] entries u0 us nd).2.1 = nd.1 ++ fresh) ∧
      (∀ fol nd, ∃ fresh, (followers_phase fol nd).1 = nd.1 ++ fresh) ∧
      ((∀ entries, (some [("foo", c10_jset)] :
            Option (List (String × StreamerSettings))) = some entries →
          ∀ e ∈ entries, normName e.1 = e.1) →
        (∀ u ∈ c10_tw.get_followers, normName u = u) →
        (c10_expected.streamers_array.map Streamer.username).Nodup ∧
          (c10_expected.streamers_array.map Streamer.username).Sublist
            c10_expected.streamers_name) :=
  C10_reload_keyed_dedup c10_tw emptySettings ⟨[], []⟩ []
    [StreamerInput.name "foo"] [] (some [("foo", c10_jset)]) true
    c10_expected (by decide) (by decide)

end Miner
